import Mathlib

/-!
Verification development for the raphael crafting macro solver.

The development shallowly embeds the two simulator/solver layers found in the
repository:

* `Craft.Sim` — the crafting simulator of `src/simulator/src/state.rs`
  (state type, `can_use_action`, `use_action`, `use_actions`) together with the
  top level of the best-first solver of `src/solvers/src/macro_solver.rs`
  (`solve`).  The per-action cost/yield functions, the combo table and the
  effect tick live in collaborator files that are not part of the core source
  (`actions.rs`, `effects.rs`); they are kept abstract as an
  `ActionSemantics` bundle so that every theorem holds for every possible
  instantiation of those collaborators.
* `Craft.RSolver` — the reduced-state layer of the quality-upper-bound solver
  of `src/raphael-solver/src/quality_upper_bound_solver/state.rs`
  (`ReducedState`, `from_simulation_state`, `from_simulation_state_inner`,
  `to_simulation_state`, `is_final`, `use_action`).  The full simulation state
  record and the effects record it operates on are modelled from the spec
  (sections 3 and 6), as the `raphael_sim` crate is an external collaborator.

Machine integers are modelled as `Nat` (for the unsigned `u16`/`u32` fields)
and `Int` (for the signed `i16` fields of the older simulator); Rust's checked
arithmetic panics on overflow rather than returning a wrapped value, so the
non-wrapping model agrees with the code on all non-panicking executions.  The
one place where a narrowing cast (`as u8`) silently truncates is modelled with
an explicit `% 256`.
-/

set_option maxHeartbeats 1000000

namespace Craft

/-- Modelled from the spec: the closed action enumeration of spec section 6.
The defining file (`actions.rs`) is not part of the core source tree. -/
inductive Action
  | BasicSynthesis
  | CarefulSynthesis
  | PrudentSynthesis
  | Groundwork
  | MuscleMemory
  | IntensiveSynthesis
  | DelicateSynthesis
  | BasicTouch
  | StandardTouch
  | AdvancedTouch
  | ByregotsBlessing
  | PreciseTouch
  | PrudentTouch
  | PreparatoryTouch
  | TrainedFinesse
  | TrainedPerfection
  | Reflect
  | RefinedTouch
  | ImmaculateMend
  | MasterMend
  | Manipulation
  | WasteNot
  | WasteNot2
  | Veneration
  | Innovation
  | GreatStrides
  | TricksOfTheTrade
  | Observe
  | HeartAndSoul
  | QuickInnovation
  | TrainedEye
  deriving DecidableEq, Repr, Inhabited

/-- Modelled from the spec: the condition values used by the simulator
(`conditions.rs` is not part of the core source tree).  `state.rs` branches on
`Good`, `Excellent` and `Pliant`; the solver always passes `Normal`. -/
inductive Condition
  | Normal
  | Good
  | Excellent
  | Pliant
  deriving DecidableEq, Repr, Inhabited

/-- Modelled from the spec: the combo states of spec section 3 (the value
`None` of the spec is represented by `Option.none` at use sites, matching the
`Option<ComboAction>` field of the older simulator's state). -/
inductive ComboAction
  | SynthesisBegin
  | BasicTouch
  | StandardTouch
  | AdvancedTouch
  deriving DecidableEq, Repr, Inhabited

namespace Sim

/-- Modelled from the spec: the buff counters of spec section 3 accessed by
`src/simulator/src/state.rs` (`effects.rs` is not part of the core source
tree). -/
structure Effects where
  inner_quiet : Nat
  waste_not : Nat
  innovation : Nat
  veneration : Nat
  great_strides : Nat
  muscle_memory : Nat
  manipulation : Nat
  deriving DecidableEq, Repr, Inhabited

/-- Modelled from the spec: the `Settings` record of spec section 6, restricted
to the fields read by `state.rs` and `macro_solver.rs`.  `max_cp` and
`max_durability` are `i16` in the older simulator, hence `Int`. -/
structure Settings where
  max_cp : Int
  max_durability : Int
  max_progress : Nat
  max_quality : Nat
  base_progress : Nat
  base_quality : Nat
  job_level : Nat
  deriving DecidableEq, Repr, Inhabited

/-- The in-progress simulation state of `src/simulator/src/state.rs`. -/
structure InProgress where
  cp : Int
  durability : Int
  missing_progress : Nat
  missing_quality : Nat
  effects : Effects
  combo : Option ComboAction
  deriving DecidableEq, Repr, Inhabited

/-- The simulation state of `src/simulator/src/state.rs`. -/
inductive State
  | InProgress (state : InProgress)
  | Completed (missing_quality : Nat)
  | Failed (missing_progress : Nat)
  | Invalid
  deriving DecidableEq, Repr, Inhabited

/-- Modelled from the spec: the per-action cost/yield functions, the combo
table and the effect tick of spec section 4.A; their defining files
(`actions.rs`, `effects.rs`) are not part of the core source tree, so they are
kept fully abstract.  Costs are unsigned in the source, hence `Nat`-valued. -/
structure ActionSemantics where
  cp_cost : Action → Effects → Condition → Nat
  durability_cost : Action → Effects → Condition → Nat
  progress_increase : Action → Settings → Effects → Condition → Nat
  quality_increase : Action → Settings → Effects → Condition → Nat
  required_combo : Action → Option ComboAction
  to_combo : Action → Option ComboAction
  tick_down : Effects → Effects

/-- Transcription of `InProgress::can_use_action`
(`src/simulator/src/state.rs`). -/
def can_use_action (sem : ActionSemantics) (st : InProgress) (a : Action)
    (c : Condition) : Bool :=
  if (sem.cp_cost a st.effects c : Int) > st.cp then
    false
  else if (sem.required_combo a).isSome ∧ st.combo ≠ sem.required_combo a then
    false
  else
    match a with
    | Action.ByregotsBlessing => decide (st.effects.inner_quiet ≠ 0)
    | Action.PrudentSynthesis => decide (st.effects.waste_not = 0)
    | Action.PrudentTouch => decide (st.effects.waste_not = 0)
    | Action.IntensiveSynthesis => decide (c = Condition.Good ∨ c = Condition.Excellent)
    | Action.PreciseTouch => decide (c = Condition.Good ∨ c = Condition.Excellent)
    | Action.TricksOfTheTrade => decide (c = Condition.Good ∨ c = Condition.Excellent)
    | Action.Groundwork => decide (st.durability ≥ (sem.durability_cost a st.effects c : Int))
    | Action.TrainedFinesse => decide (st.effects.inner_quiet = 10)
    | _ => true

/-- First phase of `InProgress::use_action` (`src/simulator/src/state.rs`,
lines up to the completion check), in source order: record the new combo,
deduct CP and durability, apply the progress increase (clearing MuscleMemory),
apply the quality increase (clearing GreatStrides and raising InnerQuiet). -/
def apply_costs_and_gains (sem : ActionSemantics) (st : InProgress) (a : Action)
    (c : Condition) (settings : Settings) : InProgress :=
  let cp_cost := sem.cp_cost a st.effects c
  let durability_cost := sem.durability_cost a st.effects c
  let progress_increase := sem.progress_increase a settings st.effects c
  let quality_increase := sem.quality_increase a settings st.effects c
  let s1 : InProgress :=
    { st with
      combo := sem.to_combo a
      cp := st.cp - (cp_cost : Int)
      durability := st.durability - (durability_cost : Int) }
  let s2 : InProgress :=
    if progress_increase ≠ 0 then
      { s1 with
        missing_progress := s1.missing_progress - progress_increase
        effects := { s1.effects with muscle_memory := 0 } }
    else s1
  if quality_increase ≠ 0 then
    let e1 := { s2.effects with great_strides := 0 }
    let e2 :=
      if settings.job_level ≥ 11 then
        { e1 with
          inner_quiet :=
            min 10
              (e1.inner_quiet +
                match a with
                | Action.Reflect => 2
                | Action.PreciseTouch => 2
                | Action.PreparatoryTouch => 2
                | _ => 1) }
      else e1
    { s2 with
      missing_quality := s2.missing_quality - quality_increase
      effects := e2 }
  else s2

/-- Second phase of `InProgress::use_action` (`src/simulator/src/state.rs`,
lines after the failure check), in source order: cancel a freshly applied
Manipulation, apply the Manipulation heal capped at `max_durability`, tick
effects down, and apply the action-specific effect writes (MasterMend's
durability and TricksOfTheTrade's CP capped at the maxima). -/
def finish_turn (sem : ActionSemantics) (s : InProgress) (a : Action)
    (c : Condition) (settings : Settings) : InProgress :=
  let s4 : InProgress :=
    if a = Action.Manipulation then
      { s with effects := { s.effects with manipulation := 0 } }
    else s
  let s5 : InProgress :=
    if s4.effects.manipulation > 0 then
      { s4 with durability := min (s4.durability + 5) settings.max_durability }
    else s4
  let s6 : InProgress := { s5 with effects := sem.tick_down s5.effects }
  let duration_bonus : Nat := if c = Condition.Pliant then 2 else 0
  match a with
  | Action.MuscleMemory =>
    { s6 with effects := { s6.effects with muscle_memory := 5 + duration_bonus } }
  | Action.GreatStrides =>
    { s6 with effects := { s6.effects with great_strides := 3 + duration_bonus } }
  | Action.Veneration =>
    { s6 with effects := { s6.effects with veneration := 4 + duration_bonus } }
  | Action.Innovation =>
    { s6 with effects := { s6.effects with innovation := 4 + duration_bonus } }
  | Action.WasteNot =>
    { s6 with effects := { s6.effects with waste_not := 4 + duration_bonus } }
  | Action.WasteNot2 =>
    { s6 with effects := { s6.effects with waste_not := 8 + duration_bonus } }
  | Action.Manipulation =>
    { s6 with effects := { s6.effects with manipulation := 8 + duration_bonus } }
  | Action.MasterMend =>
    { s6 with durability := min settings.max_durability (s6.durability + 30) }
  | Action.ByregotsBlessing =>
    { s6 with effects := { s6.effects with inner_quiet := 0 } }
  | Action.TricksOfTheTrade =>
    { s6 with cp := min settings.max_cp (s6.cp + 20) }
  | _ => s6

/-- Transcription of `InProgress::use_action` (`src/simulator/src/state.rs`),
keeping the exact order of operations of the source: precondition check, cost
and gain application (`apply_costs_and_gains`), completion check, failure
check, then the end-of-turn effect processing (`finish_turn`). -/
def use_action (sem : ActionSemantics) (st : InProgress) (a : Action)
    (c : Condition) (settings : Settings) : State :=
  if can_use_action sem st a c then
    let s3 := apply_costs_and_gains sem st a c settings
    if s3.missing_progress = 0 then
      State.Completed s3.missing_quality
    else if s3.durability ≤ 0 then
      State.Failed s3.missing_progress
    else
      State.InProgress (finish_turn sem s3 a c settings)
  else
    State.Invalid

/-- Transcription of `State::use_actions` (`src/simulator/src/state.rs`):
fold the action list through `use_action`, bailing out with `Invalid` as soon
as the current state is no longer in progress while actions remain. -/
def use_actions (sem : ActionSemantics) (s : State) (actions : List Action)
    (c : Condition) (settings : Settings) : State :=
  match s, actions with
  | s, [] => s
  | State.InProgress ip, a :: rest =>
    use_actions sem (use_action sem ip a c settings) rest c settings
  | _, _ :: _ => State.Invalid

/-- The Progress target is reachable from `s`: some action sequence, executed
under the fixed `Normal` condition used by the solver, ends in a `Completed`
state. -/
def Reachable (sem : ActionSemantics) (settings : Settings) (s : State) : Prop :=
  ∃ acts mq, use_actions sem s acts Condition.Normal settings = State.Completed mq

/-- Transcription of `MacroSolver::solve` (`src/solvers/src/macro_solver.rs`).
The finish solver's query and finishing sequence and the inner best-first
search `do_solve` live outside `state.rs`/`macro_solver.rs`'s top level
(`FinishSolver` is not part of the core source tree), so they are taken as
function arguments.  The source unwraps the finishing sequence; the model
returns it directly, which agrees with the source whenever the sequence is
present (the theorems' hypotheses guarantee this). -/
def solve (canFinish : InProgress → Bool)
    (doSolve finishSeq : InProgress → Option (List Action)) :
    State → Option (List Action)
  | State.InProgress st =>
    if canFinish st then
      match doSolve st with
      | some actions => some actions
      | none => finishSeq st
    else
      none
  | _ => none

end Sim

namespace RSolver

/-- Modelled from the spec: the bit-packed effects record of spec section 3 as
used by the current simulator (`raphael_sim`, an external collaborator of the
quality-upper-bound solver); represented by its logical fields. -/
structure Effects where
  inner_quiet : Nat
  waste_not : Nat
  innovation : Nat
  veneration : Nat
  great_strides : Nat
  muscle_memory : Nat
  manipulation : Nat
  trained_perfection_available : Bool
  trained_perfection_active : Bool
  heart_and_soul_available : Bool
  heart_and_soul_active : Bool
  quick_innovation_available : Bool
  adversarial_guard : Bool
  allow_quality_actions : Bool
  allow_progress_actions : Bool
  combo : Option ComboAction
  deriving DecidableEq, Repr, Inhabited

/-- Modelled from the spec: the `Settings` record of spec section 6 as used by
the current simulator (`raphael_sim`).  The allowed-action set is represented
as its membership function. -/
structure Settings where
  max_cp : Nat
  max_durability : Nat
  max_progress : Nat
  max_quality : Nat
  base_progress : Nat
  base_quality : Nat
  job_level : Nat
  allowed_actions : Action → Bool
  adversarial : Bool
  backload_progress : Bool

/-- Modelled from the spec: the full simulation state of spec section 3 as used
by the current simulator (`raphael_sim`). -/
structure SimulationState where
  cp : Nat
  durability : Nat
  progress : Nat
  quality : Nat
  unreliable_quality : Nat
  effects : Effects

/-- The solver settings wrapper of the `raphael-solver` crate: a record holding
the simulator settings (as in the tests of
`src/raphael-solver/src/quality_upper_bound_solver/tests.rs`). -/
structure SolverSettings where
  simulator_settings : Settings

/-- Accessor mirroring `SolverSettings::max_durability`. -/
def SolverSettings.max_durability (s : SolverSettings) : Nat :=
  s.simulator_settings.max_durability

/-- Accessor mirroring `SolverSettings::base_quality`. -/
def SolverSettings.base_quality (s : SolverSettings) : Nat :=
  s.simulator_settings.base_quality

/-- Modelled from the spec: an action combo (spec section 4.C) is either a
single action or a fixed multi-action sequence searched atomically; the
defining file (the solver's `actions.rs`) is not part of the core source
tree. -/
inductive ActionCombo
  | Single (action : Action)
  | Multi (actions : List Action)
  deriving DecidableEq, Repr, Inhabited

/-- Rust's `u32::div_ceil`: division rounding towards positive infinity. -/
def div_ceil (a b : Nat) : Nat := (a + b - 1) / b

/-- The reduced state of the quality-upper-bound solver
(`src/raphael-solver/src/quality_upper_bound_solver/state.rs`).
`compressed_unreliable_quality` is a `u8` in the source; values are kept below
256 by the explicit truncation in the constructor functions. -/
structure ReducedState where
  cp : Nat
  compressed_unreliable_quality : Nat
  effects : Effects
  deriving DecidableEq, Repr, Inhabited

/-- Transcription of `ReducedState::from_simulation_state_inner`
(`src/raphael-solver/src/quality_upper_bound_solver/state.rs`): charge the
durability deficit against CP, compress `unreliable_quality` (the `as u8` cast
of the source is the `% 256`), and normalize `great_strides` to 3 whenever it
is active. -/
def from_simulation_state_inner (state : SimulationState)
    (settings : SolverSettings) (durability_cost : Nat) : Option ReducedState :=
  let used_durability_cost :=
    (settings.max_durability - state.durability) / 5 * durability_cost
  if used_durability_cost > state.cp then
    none
  else
    let compressed_unreliable_quality :=
      div_ceil state.unreliable_quality (2 * settings.base_quality) % 256
    let effects :=
      { state.effects with
        great_strides := if state.effects.great_strides ≠ 0 then 3 else 0 }
    some
      { cp := state.cp - used_durability_cost
        compressed_unreliable_quality := compressed_unreliable_quality
        effects := effects }

/-- Transcription of `ReducedState::from_simulation_state`
(`src/raphael-solver/src/quality_upper_bound_solver/state.rs`): refund the
remaining durability (one unit per 5 durability, plus one), the Manipulation
ticks and the unspent TrainedPerfection as CP, reset durability to the
maximum, and hand over to `from_simulation_state_inner`.  The source unwraps
the inner result; the refund step makes the inner durability deficit zero, so
the unwrap never fails and the `default` fallback of the model is
unreachable. -/
def from_simulation_state (state : SimulationState) (settings : SolverSettings)
    (durability_cost : Nat) : ReducedState :=
  let refunded1 := state.durability / 5 + 1
  let refunded2 := refunded1 + state.effects.manipulation
  let e1 := { state.effects with manipulation := 0 }
  let tp := e1.trained_perfection_active || e1.trained_perfection_available
  let refunded3 := if tp then refunded2 + 4 else refunded2
  let e2 :=
    if tp then
      { e1 with
        trained_perfection_active := false
        trained_perfection_available := false }
    else e1
  let state' : SimulationState :=
    { state with
      cp := state.cp + refunded3 * durability_cost
      durability := settings.max_durability
      effects := e2 }
  match from_simulation_state_inner state' settings durability_cost with
  | some reduced => reduced
  | none => default

/-- Transcription of `ReducedState::to_simulation_state`
(`src/raphael-solver/src/quality_upper_bound_solver/state.rs`). -/
def to_simulation_state (r : ReducedState) (settings : SolverSettings) :
    SimulationState :=
  { durability := settings.max_durability
    cp := r.cp
    progress := 0
    quality := 0
    unreliable_quality := r.compressed_unreliable_quality * (2 * settings.base_quality)
    effects := r.effects }

/-- Transcription of `ReducedState::is_final`
(`src/raphael-solver/src/quality_upper_bound_solver/state.rs`). -/
def is_final (r : ReducedState) (durability_cost : Nat) : Bool :=
  decide (r.cp < 2 * durability_cost)

/-- Transcription of `ReducedState::use_action`
(`src/raphael-solver/src/quality_upper_bound_solver/state.rs`).  The combo
transition function `use_action_combo` lives in the solver's `actions.rs`,
which is not part of the core source tree; it is taken as a function argument
(`Option` models the source's `Result`). -/
def use_action
    (use_action_combo : SolverSettings → SimulationState → ActionCombo → Option SimulationState)
    (r : ReducedState) (action : ActionCombo) (settings : SolverSettings)
    (durability_cost : Nat) : Option (ReducedState × Nat × Nat) :=
  match action with
  | ActionCombo.Single Action.MasterMend
  | ActionCombo.Single Action.ImmaculateMend
  | ActionCombo.Single Action.Manipulation => none
  | _ =>
    match use_action_combo settings (to_simulation_state r settings) action with
    | some state =>
      match from_simulation_state_inner state settings durability_cost with
      | some solver_state => some (solver_state, state.progress, state.quality)
      | none => none
    | none => none

end RSolver

/-- A concrete action-semantics bundle in which every action is free and
yields nothing; used to instantiate the abstract collaborator functions in
witnesses. -/
def zeroSem : Sim.ActionSemantics where
  cp_cost := fun _ _ _ => 0
  durability_cost := fun _ _ _ => 0
  progress_increase := fun _ _ _ _ => 0
  quality_increase := fun _ _ _ _ => 0
  required_combo := fun _ => none
  to_combo := fun _ => none
  tick_down := id

/-- A concrete action-semantics bundle with uniform nonzero costs and a
nonzero progress yield; used to instantiate the abstract collaborator
functions in witnesses. -/
def basicSem : Sim.ActionSemantics where
  cp_cost := fun _ _ _ => 7
  durability_cost := fun _ _ _ => 10
  progress_increase := fun _ _ _ _ => 100
  quality_increase := fun _ _ _ _ => 0
  required_combo := fun _ => none
  to_combo := fun _ => none
  tick_down := id

/-- Concrete settings used in witnesses. -/
def exSettings : Sim.Settings where
  max_cp := 500
  max_durability := 40
  max_progress := 1000
  max_quality := 1000
  base_progress := 100
  base_quality := 100
  job_level := 90

/-- Concrete in-progress state for the completion-ordering witness: one
`basicSem` action reaches the progress target while dropping durability to
exactly 0. -/
def c3state : Sim.InProgress where
  cp := 100
  durability := 10
  missing_progress := 50
  missing_quality := 40
  effects := default
  combo := none

/-- Concrete in-progress state for the invariant-preservation witness. -/
def c7state : Sim.InProgress where
  cp := 100
  durability := 20
  missing_progress := 500
  missing_quality := 40
  effects := default
  combo := none

/-- The successor of `c7state` under `basicSem` and `BasicSynthesis`. -/
def c7result : Sim.InProgress where
  cp := 93
  durability := 10
  missing_progress := 400
  missing_quality := 40
  effects := default
  combo := none

/-- The state-machine invariant of spec section 3 restricted to the fields
named by the claim: durability is a multiple of 5, positive and at most the
maximum, and CP is at most the maximum. -/
def SimInvariant (settings : Sim.Settings) (st : Sim.InProgress) : Prop :=
  st.durability % 5 = 0 ∧ 0 < st.durability ∧
    st.durability ≤ settings.max_durability ∧ st.cp ≤ settings.max_cp

/-- Modelled from the spec: a finish-solver query for the `zeroSem`
instantiation.  Under `zeroSem` no action changes `missing_progress` and an
action is usable exactly when CP is non-negative, so the Progress target is
reachable from an in-progress state exactly when it is already met and some
action can still be played to trigger the completion check. -/
def c4canFinish (ip : Sim.InProgress) : Bool :=
  decide (ip.missing_progress = 0 ∧ 0 ≤ ip.cp)

/-- States from which no `Completed` state can ever be produced under
`zeroSem`: completed states are excluded, failed/invalid states are stuck, and
in-progress states must have a progress deficit or negative CP. -/
def C4Bad : Sim.State → Prop
  | Sim.State.InProgress ip => ip.missing_progress ≠ 0 ∨ ip.cp < 0
  | Sim.State.Completed _ => False
  | Sim.State.Failed _ => True
  | Sim.State.Invalid => True

/-- Concrete in-progress state for the solve-result witness. -/
def c4state : Sim.InProgress where
  cp := 0
  durability := 5
  missing_progress := 0
  missing_quality := 0
  effects := default
  combo := none

/-- Concrete simulator settings for the reduced-state theorems. -/
def rsSettings : RSolver.Settings where
  max_cp := 500
  max_durability := 10
  max_progress := 1000
  max_quality := 1000
  base_progress := 100
  base_quality := 100
  job_level := 100
  allowed_actions := fun _ => true
  adversarial := false
  backload_progress := false

/-- Concrete solver settings for the reduced-state theorems. -/
def rsolverSettings : RSolver.SolverSettings where
  simulator_settings := rsSettings

/-- Concrete simulation state (durability 5 out of 10, no effects) for the
state-reduction counterexample. -/
def c2state : RSolver.SimulationState where
  cp := 100
  durability := 5
  progress := 0
  quality := 0
  unreliable_quality := 0
  effects := default

/-- C8: a reduced state is final exactly when its CP is strictly below twice
the durability-cost constant. -/
theorem is_final_iff_cp_below_two_durability_costs
    (r : RSolver.ReducedState) (durability_cost : Nat) :
    RSolver.is_final r durability_cost = true ↔ r.cp < 2 * durability_cost := by
  simp [RSolver.is_final]

/-- C9: the reduced-state transition of the quality-upper-bound solver rejects
the three durability-restoring single actions (MasterMend, ImmaculateMend,
Manipulation) outright, for every reduced state, CP value, effect state,
settings, durability-cost constant and combo-transition collaborator. -/
theorem reduced_use_action_rejects_durability_actions
    (use_action_combo :
      RSolver.SolverSettings → RSolver.SimulationState → RSolver.ActionCombo →
        Option RSolver.SimulationState)
    (r : RSolver.ReducedState) (settings : RSolver.SolverSettings)
    (durability_cost : Nat) :
    RSolver.use_action use_action_combo r
        (RSolver.ActionCombo.Single Action.MasterMend) settings durability_cost = none ∧
    RSolver.use_action use_action_combo r
        (RSolver.ActionCombo.Single Action.ImmaculateMend) settings durability_cost = none ∧
    RSolver.use_action use_action_combo r
        (RSolver.ActionCombo.Single Action.Manipulation) settings durability_cost = none :=
  ⟨rfl, rfl, rfl⟩

/-- C2 (counterexample): at a concrete state with durability 5 of 10 and
durability-cost constant 10, `from_simulation_state` produces CP 120 — it
credits the remaining durability — whereas the claimed durability-deficit
debit would produce CP 90. -/
theorem reduced_state_entry_cp_not_debited :
    (RSolver.from_simulation_state c2state rsolverSettings 10).cp = 120 ∧
    c2state.cp - (rsolverSettings.max_durability - c2state.durability) / 5 * 10 = 90 ∧
    (RSolver.from_simulation_state c2state rsolverSettings 10).cp ≠
      c2state.cp - (rsolverSettings.max_durability - c2state.durability) / 5 * 10 := by
  refine ⟨by decide, by decide, by decide⟩

/-- C2 (amended): `from_simulation_state` resets durability to the maximum and
credits CP with `(durability/5 + 1 + manipulation + 4·trained_perfection) ×
durability_cost` (the durability-deficit debit is instead applied by
`from_simulation_state_inner` during solver transitions); the unreliable
quality is ceiling-divided by twice the base quality and truncated to a byte,
and the reduced effects drop Manipulation and TrainedPerfection and normalize
GreatStrides. -/
theorem from_simulation_state_credits_remaining_durability
    (state : RSolver.SimulationState) (settings : RSolver.SolverSettings)
    (durability_cost : Nat) :
    RSolver.from_simulation_state state settings durability_cost =
      { cp := state.cp +
          (state.durability / 5 + 1 + state.effects.manipulation +
            if state.effects.trained_perfection_active ||
                state.effects.trained_perfection_available then 4 else 0) *
            durability_cost
        compressed_unreliable_quality :=
          RSolver.div_ceil state.unreliable_quality (2 * settings.base_quality) % 256
        effects :=
          { state.effects with
            manipulation := 0
            trained_perfection_active := false
            trained_perfection_available := false
            great_strides :=
              if state.effects.great_strides ≠ 0 then 3 else 0 } } := by
  obtain ⟨cp, durability, progress, quality, unreliable_quality, effects⟩ := state
  obtain ⟨iq, wn, inno, ven, gs, mm, manip, tpav, tpa, hsav, hsa, qia, ag, aqa, apa, combo⟩ :=
    effects
  cases tpav <;> cases tpa <;>
    simp [RSolver.from_simulation_state, RSolver.from_simulation_state_inner,
      Nat.sub_self, RSolver.SolverSettings.max_durability]

/-- C10: applying a non-empty action sequence to any state that is not in
progress yields `Invalid`. -/
theorem use_actions_non_in_progress_invalid
    (sem : Sim.ActionSemantics) (settings : Sim.Settings) (c : Condition)
    (s : Sim.State) (h : ∀ ip, s ≠ Sim.State.InProgress ip)
    (a : Action) (rest : List Action) :
    Sim.use_actions sem s (a :: rest) c settings = Sim.State.Invalid := by
  cases s with
  | InProgress ip => exact absurd rfl (h ip)
  | Completed mq => rfl
  | Failed mp => rfl
  | Invalid => rfl

/-- Witness for C10 at a concrete non-in-progress state and non-empty action
list. -/
theorem use_actions_non_in_progress_invalid_witness :
    Sim.use_actions zeroSem (Sim.State.Completed 3) [Action.BasicSynthesis]
      Condition.Normal exSettings = Sim.State.Invalid :=
  use_actions_non_in_progress_invalid zeroSem exSettings Condition.Normal
    (Sim.State.Completed 3) (fun _ h => Sim.State.noConfusion h)
    Action.BasicSynthesis []

theorem apply_costs_missing_progress (sem : Sim.ActionSemantics)
    (st : Sim.InProgress) (a : Action) (c : Condition) (settings : Sim.Settings) :
    (Sim.apply_costs_and_gains sem st a c settings).missing_progress =
      st.missing_progress - sem.progress_increase a settings st.effects c := by
  unfold Sim.apply_costs_and_gains
  by_cases hp : sem.progress_increase a settings st.effects c = 0 <;>
  by_cases hq : sem.quality_increase a settings st.effects c = 0 <;>
    simp [hp, hq]

theorem apply_costs_missing_quality (sem : Sim.ActionSemantics)
    (st : Sim.InProgress) (a : Action) (c : Condition) (settings : Sim.Settings) :
    (Sim.apply_costs_and_gains sem st a c settings).missing_quality =
      st.missing_quality - sem.quality_increase a settings st.effects c := by
  unfold Sim.apply_costs_and_gains
  by_cases hp : sem.progress_increase a settings st.effects c = 0 <;>
  by_cases hq : sem.quality_increase a settings st.effects c = 0 <;>
    simp [hp, hq]

theorem apply_costs_durability (sem : Sim.ActionSemantics)
    (st : Sim.InProgress) (a : Action) (c : Condition) (settings : Sim.Settings) :
    (Sim.apply_costs_and_gains sem st a c settings).durability =
      st.durability - (sem.durability_cost a st.effects c : Int) := by
  unfold Sim.apply_costs_and_gains
  by_cases hp : sem.progress_increase a settings st.effects c = 0 <;>
  by_cases hq : sem.quality_increase a settings st.effects c = 0 <;>
    simp [hp, hq]

theorem apply_costs_cp (sem : Sim.ActionSemantics)
    (st : Sim.InProgress) (a : Action) (c : Condition) (settings : Sim.Settings) :
    (Sim.apply_costs_and_gains sem st a c settings).cp =
      st.cp - (sem.cp_cost a st.effects c : Int) := by
  unfold Sim.apply_costs_and_gains
  by_cases hp : sem.progress_increase a settings st.effects c = 0 <;>
  by_cases hq : sem.quality_increase a settings st.effects c = 0 <;>
    simp [hp, hq]

theorem use_action_of_can (sem : Sim.ActionSemantics) (st : Sim.InProgress)
    (a : Action) (c : Condition) (settings : Sim.Settings)
    (hcan : Sim.can_use_action sem st a c = true) :
    Sim.use_action sem st a c settings =
      if (Sim.apply_costs_and_gains sem st a c settings).missing_progress = 0 then
        Sim.State.Completed (Sim.apply_costs_and_gains sem st a c settings).missing_quality
      else if (Sim.apply_costs_and_gains sem st a c settings).durability ≤ 0 then
        Sim.State.Failed (Sim.apply_costs_and_gains sem st a c settings).missing_progress
      else
        Sim.State.InProgress
          (Sim.finish_turn sem (Sim.apply_costs_and_gains sem st a c settings) a c
            settings) := by
  unfold Sim.use_action
  rw [if_pos hcan]

theorem use_action_of_not_can (sem : Sim.ActionSemantics) (st : Sim.InProgress)
    (a : Action) (c : Condition) (settings : Sim.Settings)
    (hcan : ¬ Sim.can_use_action sem st a c = true) :
    Sim.use_action sem st a c settings = Sim.State.Invalid := by
  unfold Sim.use_action
  rw [if_neg hcan]

/-- C3: within `use_action`, the completion check precedes the failure check:
for every usable action, once the applied progress covers the whole remaining
progress the result is `Completed` — regardless of the durability left — and a
`Failed` result can only arise when the new durability is non-positive and the
progress target was not reached. -/
theorem use_action_completion_precedes_failure
    (sem : Sim.ActionSemantics) (settings : Sim.Settings) (st : Sim.InProgress)
    (a : Action) (c : Condition)
    (hcan : Sim.can_use_action sem st a c = true) :
    (st.missing_progress - sem.progress_increase a settings st.effects c = 0 →
      Sim.use_action sem st a c settings =
        Sim.State.Completed
          (st.missing_quality - sem.quality_increase a settings st.effects c)) ∧
    (∀ mp, Sim.use_action sem st a c settings = Sim.State.Failed mp →
      st.missing_progress - sem.progress_increase a settings st.effects c ≠ 0 ∧
      st.durability - (sem.durability_cost a st.effects c : Int) ≤ 0) := by
  rw [use_action_of_can sem st a c settings hcan]
  constructor
  · intro h0
    rw [if_pos (by rw [apply_costs_missing_progress]; exact h0)]
    rw [apply_costs_missing_quality]
  · intro mp hfail
    by_cases h0 : (Sim.apply_costs_and_gains sem st a c settings).missing_progress = 0
    · rw [if_pos h0] at hfail
      exact absurd hfail (by simp)
    · rw [if_neg h0] at hfail
      by_cases hd : (Sim.apply_costs_and_gains sem st a c settings).durability ≤ 0
      · refine ⟨?_, ?_⟩
        · rw [apply_costs_missing_progress] at h0
          exact h0
        · rw [apply_costs_durability] at hd
          exact hd
      · rw [if_neg hd] at hfail
        exact absurd hfail (by simp)

/-- Witness for C3: a usable concrete action that reaches the progress target
while dropping durability to exactly 0 still yields a `Completed` state. -/
theorem use_action_completion_precedes_failure_witness :
    Sim.can_use_action basicSem c3state Action.BasicSynthesis Condition.Normal = true ∧
    c3state.durability - (basicSem.durability_cost Action.BasicSynthesis c3state.effects
      Condition.Normal : Int) ≤ 0 ∧
    Sim.use_action basicSem c3state Action.BasicSynthesis Condition.Normal exSettings =
      Sim.State.Completed 40 :=
  ⟨by decide, by decide,
    (use_action_completion_precedes_failure basicSem exSettings c3state
      Action.BasicSynthesis Condition.Normal (by decide)).1 (by decide)⟩

theorem combo_cond_iff (req cur : Option ComboAction) :
    (¬ (req.isSome ∧ cur ≠ req)) ↔ ∀ rc, req = some rc → cur = some rc := by
  cases req <;> simp

theorem use_action_ne_invalid_of_can (sem : Sim.ActionSemantics)
    (st : Sim.InProgress) (a : Action) (c : Condition) (settings : Sim.Settings)
    (hcan : Sim.can_use_action sem st a c = true) :
    Sim.use_action sem st a c settings ≠ Sim.State.Invalid := by
  rw [use_action_of_can sem st a c settings hcan]
  split
  · simp
  · split <;> simp

theorem can_use_action_iff (sem : Sim.ActionSemantics) (st : Sim.InProgress)
    (a : Action) (c : Condition) :
    Sim.can_use_action sem st a c = true ↔
      ((sem.cp_cost a st.effects c : Int) ≤ st.cp ∧
       (∀ rc, sem.required_combo a = some rc → st.combo = some rc) ∧
       (a = Action.ByregotsBlessing → st.effects.inner_quiet ≠ 0) ∧
       ((a = Action.PrudentSynthesis ∨ a = Action.PrudentTouch) →
         st.effects.waste_not = 0) ∧
       ((a = Action.IntensiveSynthesis ∨ a = Action.PreciseTouch ∨
           a = Action.TricksOfTheTrade) →
         (c = Condition.Good ∨ c = Condition.Excellent)) ∧
       (a = Action.Groundwork →
         (sem.durability_cost a st.effects c : Int) ≤ st.durability) ∧
       (a = Action.TrainedFinesse → st.effects.inner_quiet = 10)) := by
  unfold Sim.can_use_action
  by_cases h1 : (sem.cp_cost a st.effects c : Int) > st.cp
  · rw [if_pos h1]
    simp only [Bool.false_eq_true, false_iff]
    intro hrhs
    exact absurd hrhs.1 (not_le.mpr h1)
  · rw [if_neg h1]
    have hle : (sem.cp_cost a st.effects c : Int) ≤ st.cp := not_lt.mp h1
    by_cases h2 : (sem.required_combo a).isSome ∧ st.combo ≠ sem.required_combo a
    · rw [if_pos h2]
      simp only [Bool.false_eq_true, false_iff]
      intro hrhs
      obtain ⟨rc, hrc⟩ := Option.isSome_iff_exists.mp h2.1
      exact h2.2 (by rw [hrc, hrhs.2.1 rc hrc])
    · have hc := (combo_cond_iff _ _).mp h2
      rw [if_neg h2]
      cases a <;>
        simp [iff_true_intro hle, iff_true_intro hc, decide_eq_true_eq, ge_iff_le]

/-- C6: `use_action` returns `Invalid` exactly when a precondition fails — the
CP cost exceeds current CP, a required combo is unsatisfied, InnerQuiet is 0
for ByregotsBlessing, WasteNot is active for PrudentSynthesis/PrudentTouch,
the condition is not Good/Excellent for
IntensiveSynthesis/PreciseTouch/TricksOfTheTrade, durability is insufficient
for Groundwork, or InnerQuiet is not 10 for TrainedFinesse; whenever all
preconditions hold, the result is not `Invalid`. -/
theorem use_action_invalid_iff_precondition_failure
    (sem : Sim.ActionSemantics) (settings : Sim.Settings) (st : Sim.InProgress)
    (a : Action) (c : Condition) :
    Sim.use_action sem st a c settings = Sim.State.Invalid ↔
      ¬ ((sem.cp_cost a st.effects c : Int) ≤ st.cp ∧
         (∀ rc, sem.required_combo a = some rc → st.combo = some rc) ∧
         (a = Action.ByregotsBlessing → st.effects.inner_quiet ≠ 0) ∧
         ((a = Action.PrudentSynthesis ∨ a = Action.PrudentTouch) →
           st.effects.waste_not = 0) ∧
         ((a = Action.IntensiveSynthesis ∨ a = Action.PreciseTouch ∨
             a = Action.TricksOfTheTrade) →
           (c = Condition.Good ∨ c = Condition.Excellent)) ∧
         (a = Action.Groundwork →
           (sem.durability_cost a st.effects c : Int) ≤ st.durability) ∧
         (a = Action.TrainedFinesse → st.effects.inner_quiet = 10)) := by
  rw [← can_use_action_iff sem st a c]
  constructor
  · intro h hcan
    exact use_action_ne_invalid_of_can sem st a c settings hcan h
  · intro h
    exact use_action_of_not_can sem st a c settings h

theorem finish_turn_invariant (sem : Sim.ActionSemantics) (s : Sim.InProgress)
    (a : Action) (c : Condition) (settings : Sim.Settings)
    (h5 : s.durability % 5 = 0) (h0 : 0 < s.durability)
    (hle : s.durability ≤ settings.max_durability)
    (hcp : s.cp ≤ settings.max_cp)
    (hmax5 : settings.max_durability % 5 = 0) :
    SimInvariant settings (Sim.finish_turn sem s a c settings) := by
  unfold SimInvariant
  cases a <;>
    simp only [Sim.finish_turn] <;>
    split_ifs <;>
    (try dsimp only) <;>
    omega

/-- C7: every `use_action` transition that stays in progress preserves the
state invariant — durability is a multiple of 5, positive and at most
`max_durability`, and CP is at most `max_cp` — given that the invariant holds
before the action, the durability maximum is a multiple of 5, and the action's
durability cost is a multiple of 5. -/
theorem use_action_preserves_invariant
    (sem : Sim.ActionSemantics) (settings : Sim.Settings) (st : Sim.InProgress)
    (a : Action) (c : Condition)
    (hinv : SimInvariant settings st)
    (hmax5 : settings.max_durability % 5 = 0)
    (hdc : sem.durability_cost a st.effects c % 5 = 0) :
    ∀ st', Sim.use_action sem st a c settings = Sim.State.InProgress st' →
      SimInvariant settings st' := by
  intro st' h
  obtain ⟨hinv1, hinv2, hinv3, hinv4⟩ := hinv
  by_cases hcan : Sim.can_use_action sem st a c = true
  · rw [use_action_of_can sem st a c settings hcan] at h
    by_cases h0 : (Sim.apply_costs_and_gains sem st a c settings).missing_progress = 0
    · rw [if_pos h0] at h
      exact absurd h (by simp)
    · rw [if_neg h0] at h
      by_cases hd : (Sim.apply_costs_and_gains sem st a c settings).durability ≤ 0
      · rw [if_pos hd] at h
        exact absurd h (by simp)
      · rw [if_neg hd] at h
        obtain rfl : st' = _ := ((Sim.State.InProgress.injEq _ _).mp h).symm
        rw [apply_costs_durability] at hd
        apply finish_turn_invariant
        · rw [apply_costs_durability]
          omega
        · rw [apply_costs_durability]
          omega
        · rw [apply_costs_durability]
          omega
        · rw [apply_costs_cp]
          have : (0 : Int) ≤ (sem.cp_cost a st.effects c : Int) := Int.natCast_nonneg _
          omega
        · exact hmax5
  · rw [use_action_of_not_can sem st a c settings hcan] at h
    exact absurd h (by simp)

/-- Witness for C7 at concrete semantics, settings, state and action. -/
theorem use_action_preserves_invariant_witness :
    SimInvariant exSettings c7result :=
  use_action_preserves_invariant basicSem exSettings c7state Action.BasicSynthesis
    Condition.Normal (by unfold SimInvariant; decide) (by decide) (by decide)
    c7result (by decide)

theorem use_actions_nil (sem : Sim.ActionSemantics) (s : Sim.State)
    (c : Condition) (settings : Sim.Settings) :
    Sim.use_actions sem s [] c settings = s := by
  cases s <;> rfl

theorem use_actions_cons_in_progress (sem : Sim.ActionSemantics)
    (ip : Sim.InProgress) (a : Action) (rest : List Action) (c : Condition)
    (settings : Sim.Settings) :
    Sim.use_actions sem (Sim.State.InProgress ip) (a :: rest) c settings =
      Sim.use_actions sem (Sim.use_action sem ip a c settings) rest c settings :=
  rfl

theorem finish_turn_missing_progress (sem : Sim.ActionSemantics)
    (s : Sim.InProgress) (a : Action) (c : Condition) (settings : Sim.Settings) :
    (Sim.finish_turn sem s a c settings).missing_progress = s.missing_progress := by
  cases a <;> simp [Sim.finish_turn] <;> split_ifs <;> rfl

theorem c4_bad_step (ip : Sim.InProgress)
    (hbad : C4Bad (Sim.State.InProgress ip)) (a : Action) :
    C4Bad (Sim.use_action zeroSem ip a Condition.Normal exSettings) := by
  by_cases hcan : Sim.can_use_action zeroSem ip a Condition.Normal = true
  · rcases hbad with hmp | hcp
    · have hmp' :
          (Sim.apply_costs_and_gains zeroSem ip a Condition.Normal exSettings).missing_progress ≠ 0 := by
        rw [apply_costs_missing_progress]
        simpa [zeroSem] using hmp
      rw [use_action_of_can _ _ _ _ _ hcan, if_neg hmp']
      split
      · exact trivial
      · left
        rw [finish_turn_missing_progress]
        exact hmp'
    · exfalso
      have hle := ((can_use_action_iff zeroSem ip a Condition.Normal).mp hcan).1
      simp [zeroSem] at hle
      omega
  · rw [use_action_of_not_can _ _ _ _ _ hcan]
    exact trivial

theorem c4_bad_no_complete (acts : List Action) :
    ∀ s, C4Bad s → ∀ mq,
      Sim.use_actions zeroSem s acts Condition.Normal exSettings ≠
        Sim.State.Completed mq := by
  induction acts with
  | nil =>
    intro s hbad mq h
    rw [use_actions_nil] at h
    cases s with
    | InProgress ip => exact Sim.State.noConfusion h
    | Completed mq2 => exact hbad
    | Failed mp => exact Sim.State.noConfusion h
    | Invalid => exact Sim.State.noConfusion h
  | cons a rest ih =>
    intro s hbad mq h
    cases s with
    | InProgress ip =>
      rw [use_actions_cons_in_progress] at h
      exact ih _ (c4_bad_step ip hbad a) mq h
    | Completed mq2 => exact hbad
    | Failed mp => simp [Sim.use_actions] at h
    | Invalid => simp [Sim.use_actions] at h

theorem c4_reachable_iff (ip : Sim.InProgress) :
    Sim.Reachable zeroSem exSettings (Sim.State.InProgress ip) ↔
      (ip.missing_progress = 0 ∧ 0 ≤ ip.cp) := by
  constructor
  · rintro ⟨acts, mq, h⟩
    by_contra hnot
    have hbad : C4Bad (Sim.State.InProgress ip) := by
      show ip.missing_progress ≠ 0 ∨ ip.cp < 0
      omega
    exact c4_bad_no_complete acts _ hbad mq h
  · rintro ⟨hmp, hcp⟩
    have hcan : Sim.can_use_action zeroSem ip Action.BasicSynthesis Condition.Normal = true := by
      rw [can_use_action_iff]
      refine ⟨by simpa [zeroSem] using hcp, by simp [zeroSem], by simp, by simp, by simp,
        by simp, by simp⟩
    have hres :
        Sim.use_action zeroSem ip Action.BasicSynthesis Condition.Normal exSettings =
          Sim.State.Completed
            (ip.missing_quality -
              zeroSem.quality_increase Action.BasicSynthesis exSettings ip.effects
                Condition.Normal) := by
      rw [use_action_of_can _ _ _ _ _ hcan,
        if_pos (by rw [apply_costs_missing_progress]; simp [zeroSem, hmp]),
        apply_costs_missing_quality]
    refine ⟨[Action.BasicSynthesis],
      ip.missing_quality -
        zeroSem.quality_increase Action.BasicSynthesis exSettings ip.effects
          Condition.Normal, ?_⟩
    rw [use_actions_cons_in_progress, hres, use_actions_nil]

theorem c4_canFinish_iff (ip : Sim.InProgress) :
    c4canFinish ip = true ↔
      Sim.Reachable zeroSem exSettings (Sim.State.InProgress ip) := by
  rw [c4_reachable_iff]
  simp [c4canFinish]

/-- C4 (counterexample): `solve` applied to an already-completed state returns
`None` even though the Progress target is reachable from it (it is already
reached: the empty action sequence ends in a `Completed` state), refuting the
claim that `None` is returned exactly for target-unreachable inputs. -/
theorem solve_none_on_completed_state :
    Sim.solve c4canFinish (fun _ => none) (fun _ => some [])
        (Sim.State.Completed 0) = none ∧
      Sim.Reachable zeroSem exSettings (Sim.State.Completed 0) :=
  ⟨rfl, ⟨[], 0, rfl⟩⟩

/-- C4 (amended): provided the finish-solver query decides reachability of the
Progress target and comes with a finishing sequence for every finishable
state, `solve` returns `None` exactly when the input is not an in-progress
state or the Progress target is unreachable from it; for every other input it
returns some action sequence. -/
theorem solve_none_iff_not_in_progress_or_unreachable
    (sem : Sim.ActionSemantics) (settings : Sim.Settings)
    (canFinish : Sim.InProgress → Bool)
    (doSolve finishSeq : Sim.InProgress → Option (List Action))
    (h1 : ∀ ip, canFinish ip = true ↔
      Sim.Reachable sem settings (Sim.State.InProgress ip))
    (h2 : ∀ ip, canFinish ip = true → (finishSeq ip).isSome = true)
    (s : Sim.State) :
    Sim.solve canFinish doSolve finishSeq s = none ↔
      ((∀ ip, s ≠ Sim.State.InProgress ip) ∨ ¬ Sim.Reachable sem settings s) := by
  cases s with
  | InProgress st =>
    constructor
    · intro h
      right
      intro hreach
      have hcf : canFinish st = true := (h1 st).mpr hreach
      simp only [Sim.solve] at h
      rw [if_pos hcf] at h
      cases hds : doSolve st with
      | some acts =>
        rw [hds] at h
        simp at h
      | none =>
        rw [hds] at h
        have h' : finishSeq st = none := h
        have h2' := h2 st hcf
        rw [h'] at h2'
        simp at h2'
    · intro h
      rcases h with h | h
      · exact absurd rfl (h st)
      · have hcf : ¬ canFinish st = true := fun hc => h ((h1 st).mp hc)
        simp only [Sim.solve]
        rw [if_neg hcf]
  | Completed mq =>
    exact ⟨fun _ => Or.inl fun _ hip => Sim.State.noConfusion hip, fun _ => rfl⟩
  | Failed mp =>
    exact ⟨fun _ => Or.inl fun _ hip => Sim.State.noConfusion hip, fun _ => rfl⟩
  | Invalid =>
    exact ⟨fun _ => Or.inl fun _ hip => Sim.State.noConfusion hip, fun _ => rfl⟩

/-- Witness for C4's amended statement: the hypotheses are satisfied by the
`zeroSem` instantiation with a finish-solver query proved to decide
reachability. -/
theorem solve_none_iff_not_in_progress_or_unreachable_witness :
    Sim.solve c4canFinish (fun _ => none) (fun _ => some [])
        (Sim.State.InProgress c4state) = none ↔
      ((∀ ip, Sim.State.InProgress c4state ≠ Sim.State.InProgress ip) ∨
        ¬ Sim.Reachable zeroSem exSettings (Sim.State.InProgress c4state)) :=
  solve_none_iff_not_in_progress_or_unreachable zeroSem exSettings c4canFinish
    (fun _ => none) (fun _ => some []) c4_canFinish_iff (fun _ _ => rfl)
    (Sim.State.InProgress c4state)

end Craft
